import Mathlib

/-!
Verification of the claudway worktree lifecycle manager.

This file gives a shallow embedding of the pure logic of the repository
(src/src/commands/worktree.py, src/src/commands/git.py,
src/src/commands/cleanup.py, src/src/commands/start.py and
src/src/settings.py) and proves the specified properties about it.
Effectful primitives (subprocess calls, the filesystem, path resolution,
interactive prompts) are modelled by explicit state or by oracles passed in
as parameters; Python exceptions are modelled with Except.
-/

namespace Claudway

/-! ## String helpers mirroring the Python primitives -/

/-- Split a character list at newline characters; the accumulator holds the
characters of the current line in reverse. -/
def splitNlAux (cur : List Char) : List Char → List (List Char)
  | [] => [cur.reverse]
  | c :: rest =>
    if c = '\n' then cur.reverse :: splitNlAux [] rest
    else splitNlAux (c :: cur) rest

/-- Python str.splitlines for newline-separated text: split on the newline
character, dropping the empty trailing piece a terminating newline yields. -/
def splitlines (s : String) : List String :=
  let parts := (splitNlAux [] s.data).map (fun cs => (⟨cs⟩ : String))
  if parts.getLast? = some "" then parts.dropLast else parts

/-- The whitespace characters Python str.strip removes. -/
def isPySpace (c : Char) : Bool :=
  c = ' ' || c = '\t' || c = '\n' || c = '\r' || c = '\x0B' || c = '\x0C'

/-- Python str.strip with no arguments: remove leading and trailing
whitespace. -/
def pyStrip (s : String) : String :=
  ⟨((s.data.dropWhile isPySpace).reverse.dropWhile isPySpace).reverse⟩

/-- Python substring membership test (the in operator on str). -/
def containsSub (hay needle : String) : Bool :=
  decide (needle.data <:+: hay.data)

/-- Python str.startswith, at the character-list level. -/
def strStartsWith (s pre : String) : Bool :=
  pre.data.isPrefixOf s.data

/-- Python str.endswith, at the character-list level. -/
def strEndsWith (s sfx : String) : Bool :=
  sfx.data.isSuffixOf s.data

/-- Python str.removeprefix: drop the prefix when present, otherwise return
the string unchanged. -/
def removePrefixStr (s pre : String) : String :=
  if pre.data.isPrefixOf s.data then ⟨s.data.drop pre.data.length⟩ else s

/-- The final path component of a relative path: rsplit on the last slash
(Python path.rsplit with one split, last piece). -/
def lastComponent (path : String) : String :=
  ⟨(path.data.reverse.takeWhile (fun c => c ≠ '/')).reverse⟩

/-! ## Settings (src/src/settings.py) -/

/-- Directory prefixes to skip when syncing untracked files
(src/src/settings.py, SKIP_PREFIXES). -/
def SKIP_PREFIXES : List String :=
  ["node_modules/", ".venv/", "venv/", "__pycache__/", ".next/", ".turbo/",
   ".nuxt/", ".cache/", "dist/", "build/", "coverage/"]

/-- Filename suffixes to skip (src/src/settings.py, SKIP_SUFFIXES). -/
def SKIP_SUFFIXES : List String :=
  [".sqlite3", ".db", ".pyc"]

/-- Exact file names to skip (src/src/settings.py, SKIP_NAMES). -/
def SKIP_NAMES : List String :=
  [".DS_Store", ".coverage"]

/-! ## Sync filter (src/src/commands/git.py, should_sync) -/

/-- should_sync from src/src/commands/git.py: reject when any skip prefix
occurs as a substring, when the final component is a skipped name, or when
the final component ends with a skipped suffix. -/
def should_sync (path : String) : Bool :=
  if SKIP_PREFIXES.any (fun p => containsSub path p) then false
  else
    let name := lastComponent path
    if name ∈ SKIP_NAMES then false
    else ! SKIP_SUFFIXES.any (fun sfx => strEndsWith name sfx)

/-- C5: should_sync returns true exactly when no configured skip prefix
occurs in the path as a substring, the final path component is not a
configured skip name, and the final path component ends with no configured
skip suffix; equivalently it returns false as soon as any one of the three
exclusions fires, and true when none does. -/
theorem should_sync_correct (path : String) :
    should_sync path = true ↔
      ((∀ p ∈ SKIP_PREFIXES, ¬ p.data <:+: path.data) ∧
       lastComponent path ∉ SKIP_NAMES ∧
       (∀ sfx ∈ SKIP_SUFFIXES, strEndsWith (lastComponent path) sfx = false)) := by
  simp only [should_sync]
  split_ifs with h1 h2
  · simp only [List.any_eq_true, containsSub, decide_eq_true_eq] at h1
    obtain ⟨p, hp, hsub⟩ := h1
    simp only [false_iff, not_and]
    intro hall
    exact absurd hsub (hall p hp)
  · simp only [false_iff, not_and]
    intro _ hn
    exact absurd h2 hn
  · simp only [List.any_eq_true, containsSub, decide_eq_true_eq,
      not_exists, not_and] at h1
    simp only [Bool.not_eq_true', List.any_eq_false, Bool.not_eq_true]
    constructor
    · intro hsfx
      exact ⟨fun p hp => h1 p hp, h2, hsfx⟩
    · intro ⟨_, _, hsfx⟩
      exact hsfx

/-! ## Cleanup orchestration state (src/src/commands/start.py) -/

/-- The orchestrator-local cleanup state read and written by do_cleanup in
src/src/commands/start.py: the one-shot flag, whether the shell context was
populated, whether the temporary directory still exists, and event counters
for the guard prompt and the destructive worktree removal. -/
structure StartSession where
  cleanup_done : Bool
  shellCtxSet : Bool
  tmpdirExists : Bool
  prompts : Nat
  destructiveRuns : Nat
deriving DecidableEq

/-- do_cleanup from src/src/commands/start.py: return immediately when the
one-shot flag is set; otherwise run the uncommitted-change guard when the
shell context is populated and the directory exists, set the flag, and run
the destructive worktree removal. -/
def do_cleanup (s : StartSession) : StartSession :=
  if s.cleanup_done then s
  else
    let s1 := if s.shellCtxSet && s.tmpdirExists then
        { s with prompts := s.prompts + 1 }
      else s
    { s1 with cleanup_done := true,
              destructiveRuns := s1.destructiveRuns + 1,
              tmpdirExists := false }

/-- The signal handler installed by start: run do_cleanup, then exit the
process with status 128 plus the signal number. -/
def signal_handler (signum : Nat) (s : StartSession) : StartSession × Nat :=
  (do_cleanup s, 128 + signum)

/-- Fire the cleanup trigger n times in sequence (normal fall-through,
atexit hook, signal handler all call the same do_cleanup). -/
def fireTriggers (s : StartSession) : Nat → StartSession
  | 0 => s
  | n + 1 => do_cleanup (fireTriggers s n)

/-- The state at the point the triggers are installed: flag unset, no shell
context yet, temporary directory present, no events counted. -/
def initSession : StartSession :=
  ⟨false, false, true, 0, 0⟩

theorem do_cleanup_sets_flag (s : StartSession) :
    (do_cleanup s).cleanup_done = true := by
  unfold do_cleanup
  split
  · next h => exact h
  · split <;> rfl

theorem do_cleanup_of_done (s : StartSession) (h : s.cleanup_done = true) :
    do_cleanup s = s := by
  unfold do_cleanup
  simp [h]

theorem fireTriggers_succ_succ (n : Nat) :
    fireTriggers initSession (n + 1) = do_cleanup initSession := by
  induction n with
  | zero => rfl
  | succ m ih =>
    show do_cleanup (fireTriggers initSession (m + 1)) = _
    rw [ih, do_cleanup_of_done _ (do_cleanup_sets_flag _)]

/-- C2: the destructive cleanup step runs at most once no matter how many of
its triggers fire: once the one-shot flag is set every later call is a
no-op, do_cleanup is idempotent, from the initial session state any number
of trigger firings performs at most one destructive run, and the signal
handler performs that same cleanup and exits with status 128 plus the
signal number. -/
theorem cleanup_runs_once_and_signal_exit (s : StartSession) (signum n : Nat) :
    (s.cleanup_done = true → do_cleanup s = s) ∧
    (do_cleanup s).cleanup_done = true ∧
    do_cleanup (do_cleanup s) = do_cleanup s ∧
    (fireTriggers initSession n).destructiveRuns ≤ 1 ∧
    signal_handler signum s = (do_cleanup s, 128 + signum) := by
  refine ⟨do_cleanup_of_done s, do_cleanup_sets_flag s,
    do_cleanup_of_done _ (do_cleanup_sets_flag s), ?_, rfl⟩
  cases n with
  | zero => simp [fireTriggers, initSession]
  | succ m =>
    rw [fireTriggers_succ_succ]
    simp [do_cleanup, initSession]

/-! ## Worktree destruction (src/src/commands/worktree.py, cleanup_worktree) -/

/-- The Python exception classes the embedded code can raise. -/
inductive PyErr
  | calledProcessError
  | fileNotFoundError
  | keyError
  | osError
deriving DecidableEq

/-- The state the destroy operation acts on: which paths the
version-control tool has registered as worktrees, and which directories
exist on disk. -/
structure FsState where
  registered : Finset String
  dirs : Finset String
deriving DecidableEq

/-- The git worktree remove force primitive: unregisters a registered
worktree and deletes its directory; fails with CalledProcessError on a path
git does not know (state unchanged). -/
def git_worktree_remove (s : FsState) (p : String) : Except PyErr FsState :=
  if p ∈ s.registered then
    .ok { registered := s.registered.erase p, dirs := s.dirs.erase p }
  else .error .calledProcessError

/-- shutil.rmtree with ignore_errors: removes the directory tree and never
fails. -/
def rmtree_ignore (s : FsState) (p : String) : FsState :=
  { s with dirs := s.dirs.erase p }

/-- cleanup_worktree from src/src/commands/worktree.py: best-effort git
worktree remove with CalledProcessError and FileNotFoundError suppressed,
then an unconditional recursive removal of the directory if it still
exists, with removal errors ignored. -/
def cleanup_worktree (s : FsState) (p : String) : Except PyErr FsState := do
  let s1 ← match git_worktree_remove s p with
    | .ok s2 => pure s2
    | .error .calledProcessError => pure s
    | .error .fileNotFoundError => pure s
    | .error e => .error e
  if p ∈ s1.dirs then pure (rmtree_ignore s1 p) else pure s1

/-- C3: destroy is idempotent and safe on unregistered paths: the first
call succeeds on every state (in particular on a path that was never a
registered sandbox), the second call succeeds and changes nothing, the
target directory no longer exists afterwards, the path is no longer
registered, and on a path that was never registered the registry itself is
left untouched (only the directory removal happens). -/
theorem cleanup_worktree_idempotent (s : FsState) (p : String) :
    ∃ s1, cleanup_worktree s p = .ok s1 ∧
      cleanup_worktree s1 p = .ok s1 ∧
      p ∉ s1.dirs ∧ p ∉ s1.registered ∧
      (p ∉ s.registered → s1.registered = s.registered) := by
  by_cases hreg : p ∈ s.registered
  · refine ⟨⟨s.registered.erase p, s.dirs.erase p⟩, ?_, ?_, ?_, ?_, ?_⟩
    · simp [cleanup_worktree, git_worktree_remove, pure, Except.pure, bind, Except.bind, hreg, Finset.not_mem_erase]
    · simp [cleanup_worktree, git_worktree_remove, pure, Except.pure, bind, Except.bind, Finset.not_mem_erase]
    · exact Finset.not_mem_erase p s.dirs
    · exact Finset.not_mem_erase p s.registered
    · intro h; exact absurd hreg h
  · by_cases hdir : p ∈ s.dirs
    · refine ⟨⟨s.registered, s.dirs.erase p⟩, ?_, ?_, ?_, ?_, fun _ => rfl⟩
      · simp [cleanup_worktree, git_worktree_remove, pure, Except.pure, bind, Except.bind, hreg, hdir, rmtree_ignore]
      · simp [cleanup_worktree, git_worktree_remove, pure, Except.pure, bind, Except.bind, hreg, Finset.not_mem_erase]
      · exact Finset.not_mem_erase p s.dirs
      · exact hreg
    · refine ⟨s, ?_, ?_, hdir, hreg, fun _ => rfl⟩
      · simp [cleanup_worktree, git_worktree_remove, pure, Except.pure, bind, Except.bind, hreg, hdir]
      · simp [cleanup_worktree, git_worktree_remove, pure, Except.pure, bind, Except.bind, hreg, hdir]

/-! ## Uncommitted-change guard (src/src/commands/cleanup.py) -/

/-- What the user can do at the guard's confirmation prompt: answer yes or
no, or terminate the input stream (EOFError) or interrupt (KeyboardInterrupt),
both of which raise out of the prompt call. -/
inductive PromptAnswer
  | yes
  | no
  | eofRaised
  | interruptRaised
deriving DecidableEq

/-- The environment the guard interacts with: whether standard input is a
terminal, whether the sandbox directory still exists, the porcelain dirty
status before iteration k (empty string means clean; k shells have been
re-entered so far), and the answer given at the prompt of iteration k. -/
structure GuardWorld where
  isatty : Bool
  dirExists : Bool
  status : Nat → String
  answer : Nat → PromptAnswer

/-- The guard's while loop, with explicit fuel; an outcome pairs the number
of prompts issued with the number of shells re-entered, and the error case
is an exception escaping the loop body at the prompt. -/
def guardLoop (w : GuardWorld) : Nat → Nat → Option (Except (Nat × Nat) (Nat × Nat))
  | 0, _ => none
  | fuel + 1, i =>
    if w.status i = "" then some (.ok (i, i))
    else match w.answer i with
      | .no => some (.ok (i + 1, i))
      | .yes => guardLoop w fuel (i + 1)
      | .eofRaised => some (.error (i + 1, i))
      | .interruptRaised => some (.error (i + 1, i))

/-- prompt_uncommitted_changes from src/src/commands/cleanup.py: return at
once when standard input is not a terminal or the sandbox directory is
gone; otherwise run the warn-and-re-enter loop with EOFError and
KeyboardInterrupt caught and passed over, so the call always returns
normally. The value, when the fuel suffices, is the pair (prompts issued,
shells re-entered); an error value would be an exception propagating to the
caller. -/
def prompt_uncommitted_changes (w : GuardWorld) (fuel : Nat) :
    Option (Except (Nat × Nat) (Nat × Nat)) :=
  if !w.isatty || !w.dirExists then some (.ok (0, 0))
  else match guardLoop w fuel 0 with
    | none => none
    | some (.ok r) => some (.ok r)
    | some (.error r) => some (.ok r)

/-- C4: the guard returns immediately, issuing no prompt, when the input
stream is not interactive, when the sandbox directory no longer exists, or
when the dirty status is clean; end-of-input or an interrupt at the prompt
is treated as declining (the guard returns normally, with no further shell
re-entered); and no exception ever propagates out of the guard. -/
theorem prompt_uncommitted_changes_guard (w : GuardWorld) (fuel : Nat) :
    (w.isatty = false → prompt_uncommitted_changes w fuel = some (.ok (0, 0))) ∧
    (w.dirExists = false → prompt_uncommitted_changes w fuel = some (.ok (0, 0))) ∧
    (w.status 0 = "" → prompt_uncommitted_changes w (fuel + 1) = some (.ok (0, 0))) ∧
    (w.isatty = true → w.dirExists = true → w.status 0 ≠ "" →
      (w.answer 0 = .eofRaised ∨ w.answer 0 = .interruptRaised) →
      prompt_uncommitted_changes w (fuel + 1) = some (.ok (1, 0))) ∧
    (∀ r, prompt_uncommitted_changes w fuel = some r → ∃ c, r = .ok c) := by
  refine ⟨?_, ?_, ?_, ?_, ?_⟩
  · intro h; simp [prompt_uncommitted_changes, h]
  · intro h; simp [prompt_uncommitted_changes, h]
  · intro h
    by_cases ha : w.isatty
    · by_cases hd : w.dirExists
      · simp [prompt_uncommitted_changes, ha, hd, guardLoop, h]
      · simp [prompt_uncommitted_changes, hd]
    · simp [prompt_uncommitted_changes, ha]
  · intro ha hd hs hans
    have : guardLoop w (fuel + 1) 0 = some (.error (1, 0)) := by
      rcases hans with h0 | h0 <;> simp [guardLoop, hs, h0]
    simp [prompt_uncommitted_changes, ha, hd, this]
  · intro r hr
    unfold prompt_uncommitted_changes at hr
    split at hr
    · exact ⟨(0, 0), by injection hr with h; exact h.symm⟩
    · split at hr
      · exact absurd hr (by simp)
      · next r2 _ => exact ⟨r2, by injection hr with h; exact h.symm⟩
      · next r2 _ => exact ⟨r2, by injection hr with h; exact h.symm⟩

/-! ## Naming and classification (src/src/commands/worktree.py) -/

/-- Modelled from the spec: PERSISTENT_WORKTREES_DIR, the single well-known
persistent-sandboxes root. The sources provided import this constant from
src.settings but its definition is absent there; the spec says only that it
is one fixed root directory, so any concrete absolute path models it. -/
def PERSISTENT_WORKTREES_DIR : String := "/home/user/.claudway/worktrees"

/-- Python Path.is_relative_to on normalized absolute path strings below
the filesystem root: equality, or prefix at a component boundary. -/
def isRelativeTo (p root : String) : Bool :=
  p == root || strStartsWith p (root ++ "/")

/-- classify_worktree from src/src/commands/worktree.py. Path resolution is
the oracle resolvePath (none models an OSError raised by Path.resolve, for
example on a dangling symlink); tmpdirRaw is what tempfile.gettempdir
returns. The first resolution of the candidate and the repository root is
inside a try block whose except clause passes on OSError; the later
resolutions are unguarded, so their failures propagate. -/
def classify_worktree (resolvePath : String → Option String)
    (tmpdirRaw repo wt : String) : Except PyErr String :=
  let tryMain : Option Bool := do
    let w ← resolvePath wt
    let r ← resolvePath repo
    pure (w == r)
  match tryMain with
  | some true => .ok "main"
  | _ =>
    match resolvePath wt with
    | none => .error .osError
    | some wtRes =>
      match resolvePath PERSISTENT_WORKTREES_DIR with
      | none => .error .osError
      | some persRoot =>
        if isRelativeTo wtRes persRoot then .ok "persistent"
        else
          match resolvePath tmpdirRaw with
          | none => .error .osError
          | some tmpRoot =>
            if strStartsWith wtRes tmpRoot && containsSub wtRes "/cw-" then
              .ok "temporary"
            else .ok "unknown"

/-- A path-resolution oracle that never fails, resolving via f. -/
def totalEnv (f : String → String) : String → Option String :=
  fun p => some (f p)

/-- C7: with every resolution succeeding, classify_worktree resolves both
paths and returns main when the resolved candidate equals the resolved
repository root, persistent when it lies under the persistent-sandboxes
root, temporary when it is under the temp root and contains a cw- path
component, and unknown otherwise; in particular classifying the repository
root itself always yields main, and an unrelated path yields unknown. -/
theorem classify_worktree_cases (resolvePath : String → Option String)
    (tmpdirRaw repo wt w r pr t : String) :
    (resolvePath wt = some w → resolvePath repo = some r →
      resolvePath PERSISTENT_WORKTREES_DIR = some pr →
      resolvePath tmpdirRaw = some t →
      classify_worktree resolvePath tmpdirRaw repo wt =
        .ok (if w = r then "main"
          else if isRelativeTo w pr then "persistent"
          else if strStartsWith w t && containsSub w "/cw-" then "temporary"
          else "unknown")) ∧
    (∀ repo2 tmp2, classify_worktree (totalEnv id) tmp2 repo2 repo2 = .ok "main") ∧
    classify_worktree (totalEnv id) "/tmp" "/home/user/repo" "/some/random/path"
      = .ok "unknown" := by
  refine ⟨?_, ?_, ?_⟩
  · intro hw hr hp ht
    by_cases hwr : w = r
    · simp [classify_worktree, hw, hr, hwr, pure, bind, Option.bind]
    · simp only [classify_worktree, hw, hr, hp, ht, pure, bind, Option.bind]
      have hbe : (w == r) = false := by simp [hwr]
      simp only [hbe]
      split_ifs <;> rfl
  · intro repo2 tmp2
    simp [classify_worktree, totalEnv, pure, bind, Option.bind]
  · rfl

/-- Witness for C7 at a concrete input: classifying the repository root
itself yields main. -/
theorem classify_worktree_cases_witness :
    classify_worktree (totalEnv id) "/tmp" "/home/user/repo" "/home/user/repo"
      = .ok "main" :=
  (classify_worktree_cases (totalEnv id) "/tmp" "/home/user/repo"
    "/home/user/repo" "/home/user/repo" "/home/user/repo"
    PERSISTENT_WORKTREES_DIR "/tmp").2.1 "/home/user/repo" "/tmp"

/-- A resolution oracle under which one concrete candidate path fails to
resolve (a dangling symlink). -/
def danglingEnv : String → Option String :=
  fun p => if p = "/dangling" then none else some p

/-- C8 counterexample: the claim says classify never raises when canonical
resolution of a path fails, but when the candidate path itself fails to
resolve, the second, unguarded resolution raises an OSError out of
classify_worktree. -/
theorem classify_worktree_raises_on_candidate :
    classify_worktree danglingEnv "/tmp" "/home/user/repo" "/dangling"
      = .error .osError := by
  rfl

/-- C8 amended: when canonical resolution of the repository root fails,
classify_worktree does not raise and falls through to a conservative
non-primary result; only a resolution failure of the candidate path itself
propagates. -/
theorem classify_worktree_repo_resolution_failure
    (resolvePath : String → Option String) (tmpdirRaw repo wt w pr t : String)
    (hrepo : resolvePath repo = none) (hwt : resolvePath wt = some w)
    (hpr : resolvePath PERSISTENT_WORKTREES_DIR = some pr)
    (ht : resolvePath tmpdirRaw = some t) :
    ∃ k, classify_worktree resolvePath tmpdirRaw repo wt = .ok k ∧ k ≠ "main" := by
  simp only [classify_worktree, hrepo, hwt, hpr, ht, pure, bind, Option.bind]
  by_cases h1 : isRelativeTo w pr
  · exact ⟨"persistent", by simp [h1], by decide⟩
  · by_cases h2 : strStartsWith w t && containsSub w "/cw-"
    · exact ⟨"temporary", by simp [h1, h2], by decide⟩
    · exact ⟨"unknown", by simp [h1, h2], by decide⟩

/-- A resolution oracle under which the repository root fails to resolve. -/
def repoFailEnv : String → Option String :=
  fun p => if p = "/brokenrepo" then none else some p

/-- Witness for the amended C8 theorem at a concrete input: a repository
root whose resolution fails, a candidate that resolves fine. -/
theorem classify_worktree_repo_resolution_failure_witness :
    ∃ k, classify_worktree repoFailEnv "/tmp" "/brokenrepo" "/some/x" = .ok k ∧
      k ≠ "main" :=
  classify_worktree_repo_resolution_failure repoFailEnv "/tmp" "/brokenrepo"
    "/some/x" "/some/x" PERSISTENT_WORKTREES_DIR "/tmp"
    (by decide) (by decide) (by decide) (by decide)

/-! ## Worktree creation and conflict detection
(src/src/commands/worktree.py, create_worktree / find_conflicting_worktree) -/

/-- Whether a porcelain listing line is a branch line matching the target
branch: it starts with the branch field tag and ends with a slash followed
by the branch name. -/
def matchesBranch (branch line : String) : Bool :=
  strStartsWith line "branch " && strEndsWith line ("/" ++ branch)

/-- The scan of find_conflicting_worktree over the listing lines: track the
most recent worktree line's path; on a branch line matching the target,
return the tracked path. -/
def findConflictLines (branch : String) : String → List String → Option String
  | _, [] => none
  | cand, line :: rest =>
    if strStartsWith line "worktree " then
      findConflictLines branch (removePrefixStr line "worktree ") rest
    else if matchesBranch branch line then some cand
    else findConflictLines branch cand rest

/-- find_conflicting_worktree from src/src/commands/worktree.py, applied to
the text of the porcelain worktree listing; the tracked candidate starts as
the empty string. -/
def find_conflicting_worktree (listing branch : String) : Option String :=
  findConflictLines branch "" (splitlines listing)

/-- The most recent worktree path named in a run of listing lines, starting
from a given candidate. -/
def trackCandidate (cand : String) (ls : List String) : String :=
  ls.foldl (fun c l =>
    if strStartsWith l "worktree " then removePrefixStr l "worktree " else c) cand

/-- Whether an error message carries one of the two known conflict
signatures of the version-control tool. -/
def conflictSignature (msg : String) : Bool :=
  containsSub msg "already checked out" || containsSub msg "already used by worktree"

/-- The observable outcome of create_worktree. -/
inductive CreateResult
  | ok
  | raisedProcessError (stderrText : String)
  | exitOne
  | conflict (existingPath : String)
deriving DecidableEq

/-- create_worktree from src/src/commands/worktree.py: addResult is the
outcome of the git worktree add call (none means success, some carries the
raw stderr of the CalledProcessError) and listing is the porcelain worktree
listing consulted on a conflict. A failure without a conflict signature
re-raises the original error; with a signature, a located conflicting path
raises WorktreeConflictError with that path, and a missing or empty located
path prints the raw error and exits with status 1. -/
def create_worktree (addResult : Option String) (listing branch : String) :
    CreateResult :=
  match addResult with
  | none => .ok
  | some rawStderr =>
    if ! conflictSignature (pyStrip rawStderr) then .raisedProcessError rawStderr
    else
      match find_conflicting_worktree listing branch with
      | none => .exitOne
      | some p => if p = "" then .exitOne else .conflict p

theorem isPrefixOf_head_ne {c1 c2 : Char} (p1 p2 s : List Char) (h : c1 ≠ c2)
    (h1 : List.isPrefixOf (c1 :: p1) s = true) :
    List.isPrefixOf (c2 :: p2) s = false := by
  cases s with
  | nil => simp [List.isPrefixOf] at h1
  | cons a t =>
    have hca : c1 = a := by
      simp only [List.isPrefixOf, Bool.and_eq_true, beq_iff_eq] at h1
      exact h1.1
    have hcf : (c2 == a) = false := by
      simp only [beq_eq_false_iff_ne, ne_eq]
      intro he
      exact h (hca.trans he.symm)
    simp [List.isPrefixOf, hcf]

theorem branch_line_not_worktree_line (s : String)
    (h : strStartsWith s "branch " = true) :
    strStartsWith s "worktree " = false := by
  simp only [strStartsWith] at h ⊢
  exact isPrefixOf_head_ne _ _ _ (by decide) h

theorem findConflictLines_eq_none (branch : String) :
    ∀ (ls : List String), (∀ l ∈ ls, matchesBranch branch l = false) →
      ∀ cand, findConflictLines branch cand ls = none := by
  intro ls
  induction ls with
  | nil => intro _ cand; rfl
  | cons l rest ih =>
    intro hall cand
    have hl : matchesBranch branch l = false := hall l (List.mem_cons_self l rest)
    have hrest := fun x hx => hall x (List.mem_cons_of_mem l hx)
    by_cases hw : strStartsWith l "worktree "
    · simp only [findConflictLines, hw, if_true]
      exact ih hrest _
    · simp only [findConflictLines, hw, Bool.false_eq_true, if_false, hl]
      exact ih hrest cand

theorem findConflictLines_found (branch m : String) (l2 : List String)
    (hm : matchesBranch branch m = true) :
    ∀ (l1 : List String) (cand : String),
      (∀ l ∈ l1, matchesBranch branch l = false) →
      findConflictLines branch cand (l1 ++ m :: l2)
        = some (trackCandidate cand l1) := by
  intro l1
  induction l1 with
  | nil =>
    intro cand _
    have hbr : strStartsWith m "branch " = true := by
      simp only [matchesBranch, Bool.and_eq_true] at hm
      exact hm.1
    have hw : strStartsWith m "worktree " = false :=
      branch_line_not_worktree_line m hbr
    simp [findConflictLines, hw, hm, trackCandidate]
  | cons l rest ih =>
    intro cand hall
    have hl : matchesBranch branch l = false := hall l (List.mem_cons_self l rest)
    have hrest := fun x hx => hall x (List.mem_cons_of_mem l hx)
    by_cases hw : strStartsWith l "worktree "
    · simp only [List.cons_append, findConflictLines, hw, if_true, List.append_eq]
      rw [ih _ hrest]
      simp [trackCandidate, hw]
    · simp only [List.cons_append, findConflictLines, hw, Bool.false_eq_true,
        if_false, hl, List.append_eq]
      rw [ih _ hrest]
      simp [trackCandidate, hw]

/-- C1: on a create failure whose error text (stripped) lacks both conflict
signatures, create_worktree re-raises the original error unchanged; with a
conflict signature it scans the porcelain listing, and when no listing line
is a branch line matching the target it exits with status 1 instead of
retrying, while when the listing splits as earlier lines (none matching the
target branch) followed by a matching branch line, the reported conflicting
path is the most recent worktree-line path tracked over those earlier
lines. -/
theorem create_worktree_conflict_handling (rawStderr listing branch : String) :
    (conflictSignature (pyStrip rawStderr) = false →
      create_worktree (some rawStderr) listing branch
        = .raisedProcessError rawStderr) ∧
    (conflictSignature (pyStrip rawStderr) = true →
      ((∀ l ∈ splitlines listing, matchesBranch branch l = false) →
        create_worktree (some rawStderr) listing branch = .exitOne) ∧
      (∀ l1 m l2, splitlines listing = l1 ++ m :: l2 →
        matchesBranch branch m = true →
        (∀ l ∈ l1, matchesBranch branch l = false) →
        trackCandidate "" l1 ≠ "" →
        create_worktree (some rawStderr) listing branch
          = .conflict (trackCandidate "" l1))) := by
  constructor
  · intro hsig
    simp [create_worktree, hsig]
  · intro hsig
    constructor
    · intro hall
      have hfind : find_conflicting_worktree listing branch = none :=
        findConflictLines_eq_none branch (splitlines listing) hall ""
      simp [create_worktree, hsig, hfind]
    · intro l1 m l2 hsplit hm hall hne
      have hfind : find_conflicting_worktree listing branch
          = some (trackCandidate "" l1) := by
        unfold find_conflicting_worktree
        rw [hsplit]
        exact findConflictLines_found branch m l2 hm l1 "" hall
      simp [create_worktree, hsig, hfind, hne]

/-- Witness for C1 at the concrete listing of the repository's tests: a
conflict-signature error for branch feature, whose conflicting worktree is
the temporary sandbox named on the second block's worktree line. -/
theorem create_worktree_conflict_handling_witness :
    create_worktree
      (some "fatal: 'feature' is already checked out at '/tmp/cw-xyz'")
      ("worktree /home/user/repo\nHEAD abc123\nbranch refs/heads/main\n\n"
        ++ "worktree /tmp/cw-xyz\nHEAD def456\nbranch refs/heads/feature\n")
      "feature" = .conflict "/tmp/cw-xyz" := by
  have h := (create_worktree_conflict_handling
    "fatal: 'feature' is already checked out at '/tmp/cw-xyz'"
    ("worktree /home/user/repo\nHEAD abc123\nbranch refs/heads/main\n\n"
      ++ "worktree /tmp/cw-xyz\nHEAD def456\nbranch refs/heads/feature\n")
    "feature").2 (by decide)
  have h2 := h.2 ["worktree /home/user/repo", "HEAD abc123",
      "branch refs/heads/main", "", "worktree /tmp/cw-xyz", "HEAD def456"]
    "branch refs/heads/feature" [] (by decide) (by decide) (by decide) (by decide)
  exact h2.trans (by decide)

/-! ## Worktree listing (src/src/commands/worktree.py, list_worktrees) -/

theorem strStartsWith_append (pre s : String) :
    strStartsWith (pre ++ s) pre = true := by
  simp only [strStartsWith]
  rw [List.isPrefixOf_iff_prefix, String.data_append]
  exact List.prefix_append _ _

theorem removePrefixStr_append (pre s : String) :
    removePrefixStr (pre ++ s) pre = s := by
  simp only [removePrefixStr]
  rw [if_pos]
  · show (⟨(pre ++ s).data.drop pre.data.length⟩ : String) = s
    rw [String.data_append, List.drop_left]
  · rw [List.isPrefixOf_iff_prefix, String.data_append]
    exact List.prefix_append _ _

theorem head_line_not_worktree (h : String) :
    strStartsWith ("HEAD " ++ h) "worktree " = false := by
  have h1 : strStartsWith ("HEAD " ++ h) "HEAD " = true := strStartsWith_append _ _
  simp only [strStartsWith] at h1 ⊢
  exact isPrefixOf_head_ne _ _ _ (by decide) h1

theorem branch_prefixed_line_starts (n : String) :
    strStartsWith ("branch refs/heads/" ++ n) "branch " = true := by
  simp only [strStartsWith]
  rw [List.isPrefixOf_iff_prefix, String.data_append]
  have e : ("branch refs/heads/" : String).data
      = ("branch " : String).data ++ ("refs/heads/" : String).data := by decide
  rw [e, List.append_assoc]
  exact List.prefix_append _ _

theorem branch_prefixed_line_not_worktree (n : String) :
    strStartsWith ("branch refs/heads/" ++ n) "worktree " = false := by
  have h1 := branch_prefixed_line_starts n
  simp only [strStartsWith] at h1 ⊢
  exact isPrefixOf_head_ne _ _ _ (by decide) h1

theorem branch_prefixed_line_not_head (n : String) :
    strStartsWith ("branch refs/heads/" ++ n) "HEAD " = false := by
  have h1 := branch_prefixed_line_starts n
  simp only [strStartsWith] at h1 ⊢
  exact isPrefixOf_head_ne _ _ _ (by decide) h1

/-- A Python dict with string keys and values, as an association list; an
assignment puts the new pair in front and drops any stale pair for the
key, so lookups see the latest value. -/
abbrev PyDict := List (String × String)

/-- Dict lookup, none when the key is absent. -/
def dget? (d : PyDict) (k : String) : Option String :=
  (d.find? (fun kv => kv.1 == k)).map (fun kv => kv.2)

/-- Dict assignment. -/
def dset (d : PyDict) (k v : String) : PyDict :=
  (k, v) :: d.filter (fun kv => kv.1 != k)

/-- Python dict.setdefault: assign only when the key is absent. -/
def dsetdefault (d : PyDict) (k v : String) : PyDict :=
  if (dget? d k).isSome then d else dset d k v

theorem dget?_dset_self (d : PyDict) (k v : String) :
    dget? (dset d k v) k = some v := by
  simp [dget?, dset, List.find?_cons_of_pos]

theorem find?_filter_ne (d : PyDict) (k k2 : String) (h : k2 ≠ k) :
    (d.filter (fun kv => kv.1 != k)).find? (fun kv => kv.1 == k2)
      = d.find? (fun kv => kv.1 == k2) := by
  induction d with
  | nil => rfl
  | cons a t ih =>
    obtain ⟨ak, av⟩ := a
    by_cases ha : ak = k
    · have h1 : (ak != k) = false := by simp [ha]
      have h2 : (ak == k2) = false := by
        simp only [beq_eq_false_iff_ne, ne_eq]
        intro he
        exact h (ha.symm.trans he).symm
      simp [List.filter_cons, List.find?_cons, h1, h2, ih]
    · have h1 : (ak != k) = true := by simp [ha]
      simp only [List.filter_cons, List.find?_cons, h1, if_true]
      by_cases hk2 : ak = k2
      · simp [hk2]
      · have h2 : (ak == k2) = false := by simp [hk2]
        simp [h2, ih]

theorem dget?_dset_ne (d : PyDict) (k v k2 : String) (h : k2 ≠ k) :
    dget? (dset d k v) k2 = dget? d k2 := by
  have hke : (k == k2) = false := by
    simp only [beq_eq_false_iff_ne, ne_eq]
    exact fun he => h he.symm
  simp only [dget?, dset, List.find?_cons, hke]
  rw [find?_filter_ne d k k2 h]

theorem dget?_dsetdefault_isSome (d : PyDict) (k v : String) :
    (dget? (dsetdefault d k v) k).isSome = true := by
  simp only [dsetdefault]
  split
  · next h => exact h
  · rw [dget?_dset_self]
    rfl

theorem dsetdefault_of_isSome (d : PyDict) (k v : String)
    (h : (dget? d k).isSome = true) : dsetdefault d k v = d := by
  simp [dsetdefault, h]

/-- The classification result when every path resolution succeeds via f. -/
def classifyKind (f : String → String) (tmpdirRaw repo wt : String) : String :=
  if f wt = f repo then "main"
  else if isRelativeTo (f wt) (f PERSISTENT_WORKTREES_DIR) then "persistent"
  else if strStartsWith (f wt) (f tmpdirRaw) && containsSub (f wt) "/cw-" then
    "temporary"
  else "unknown"

theorem classify_worktree_totalEnv (f : String → String)
    (tmpdirRaw repo wt : String) :
    classify_worktree (totalEnv f) tmpdirRaw repo wt
      = .ok (classifyKind f tmpdirRaw repo wt) := by
  by_cases h : f wt = f repo
  · simp [classify_worktree, totalEnv, classifyKind, h, pure, bind, Option.bind]
  · have hbe : (f wt == f repo) = false := by simp [h]
    simp only [classify_worktree, totalEnv, classifyKind, pure, bind,
      Option.bind, hbe]
    simp only [h, if_false]
    split_ifs <;> rfl

/-- The flush step of list_worktrees at a block boundary: default the
branch field to the placeholder, then read the block's path (a missing path
key raises KeyError) and classify it (resolution failures propagate),
storing the classification under the type key. -/
def flushEntry (resolvePath : String → Option String) (tmpdirRaw repo : String)
    (current : PyDict) : Except PyErr PyDict :=
  match dget? (dsetdefault current "branch" "(unknown)") "path" with
  | none => .error .keyError
  | some p =>
    match classify_worktree resolvePath tmpdirRaw repo p with
    | .error e => .error e
    | .ok k => .ok (dset (dsetdefault current "branch" "(unknown)") "type" k)

/-- The line-oriented state machine of list_worktrees from
src/src/commands/worktree.py: one accumulator record, reset on a worktree
line and flushed at blank-line boundaries and at end of input; the branch
field strips the refs/heads/ prefix, and the detached and bare markers
store placeholder branch values (the detached one naming the first seven
characters of the HEAD commit when present). -/
def parseWtLines (resolvePath : String → Option String) (tmpdirRaw repo : String) :
    List String → PyDict → List PyDict → Except PyErr (List PyDict)
  | [], current, acc =>
    if current = [] then .ok acc
    else
      match flushEntry resolvePath tmpdirRaw repo current with
      | .error e => .error e
      | .ok entry => .ok (acc ++ [entry])
  | line :: rest, current, acc =>
    if strStartsWith line "worktree " then
      parseWtLines resolvePath tmpdirRaw repo rest
        [("path", removePrefixStr line "worktree ")] acc
    else if strStartsWith line "HEAD " then
      parseWtLines resolvePath tmpdirRaw repo rest
        (dset current "head" (removePrefixStr line "HEAD ")) acc
    else if strStartsWith line "branch " then
      parseWtLines resolvePath tmpdirRaw repo rest
        (dset current "branch" (removePrefixStr line "branch refs/heads/")) acc
    else if line = "detached" then
      let headv := (dget? current "head").getD ""
      let bval := if headv ≠ "" then
          "(detached at " ++ (⟨headv.data.take 7⟩ : String) ++ ")"
        else "(detached)"
      parseWtLines resolvePath tmpdirRaw repo rest (dset current "branch" bval) acc
    else if line = "bare" then
      parseWtLines resolvePath tmpdirRaw repo rest
        (dset current "branch" "(bare)") acc
    else if line = "" ∧ current ≠ [] then
      match flushEntry resolvePath tmpdirRaw repo current with
      | .error e => .error e
      | .ok entry => parseWtLines resolvePath tmpdirRaw repo rest [] (acc ++ [entry])
    else
      parseWtLines resolvePath tmpdirRaw repo rest current acc

/-- list_worktrees from src/src/commands/worktree.py, applied to the
outcome of the porcelain listing subprocess: an empty result on a non-zero
exit code, otherwise the parsed entries. -/
def list_worktrees (resolvePath : String → Option String) (tmpdirRaw repo : String)
    (returncode : Int) (output : String) : Except PyErr (List PyDict) :=
  if returncode ≠ 0 then .ok []
  else parseWtLines resolvePath tmpdirRaw repo (splitlines output) [] []

/-- The branch field of a porcelain listing block. -/
inductive BranchInfo
  | onBranch (name : String)
  | detachedHead
  | bareRepo
deriving DecidableEq

/-- One fabricated porcelain listing block: a worktree path, a HEAD commit,
and the branch field. -/
structure WtBlock where
  path : String
  headv : String
  info : BranchInfo
deriving DecidableEq

/-- The third line of a rendered block. -/
def infoLine : BranchInfo → String
  | .onBranch n => "branch refs/heads/" ++ n
  | .detachedHead => "detached"
  | .bareRepo => "bare"

/-- The lines of one porcelain listing block, blank-line terminated. -/
def renderBlock (b : WtBlock) : List String :=
  ["worktree " ++ b.path, "HEAD " ++ b.headv, infoLine b.info, ""]

/-- The branch value list_worktrees reports for a block. -/
def displayBranch (b : WtBlock) : String :=
  match b.info with
  | .onBranch n => n
  | .detachedHead =>
    if b.headv ≠ "" then
      "(detached at " ++ (⟨b.headv.data.take 7⟩ : String) ++ ")"
    else "(detached)"
  | .bareRepo => "(bare)"

/-- The path, branch and type fields of an entry. -/
def entryTriple (e : PyDict) : Option String × Option String × Option String :=
  (dget? e "path", dget? e "branch", dget? e "type")

/-- The entry the parser builds for one rendered block. -/
def mkEntry (f : String → String) (tmpdirRaw repo : String) (b : WtBlock) : PyDict :=
  dset (dset (dset [("path", b.path)] "head" b.headv) "branch" (displayBranch b))
    "type" (classifyKind f tmpdirRaw repo b.path)

theorem flushEntry_block (f : String → String) (tmpdirRaw repo : String)
    (b : WtBlock) :
    flushEntry (totalEnv f) tmpdirRaw repo
      (dset (dset [("path", b.path)] "head" b.headv) "branch" (displayBranch b))
      = .ok (mkEntry f tmpdirRaw repo b) := by
  have hb : (dget? (dset (dset [("path", b.path)] "head" b.headv) "branch"
      (displayBranch b)) "branch").isSome = true := by
    rw [dget?_dset_self]; rfl
  have hp : dget? (dset (dset [("path", b.path)] "head" b.headv) "branch"
      (displayBranch b)) "path" = some b.path := by
    rw [dget?_dset_ne _ _ _ _ (by decide), dget?_dset_ne _ _ _ _ (by decide)]
    rfl
  simp only [flushEntry, dsetdefault_of_isSome _ _ _ hb, hp,
    classify_worktree_totalEnv, mkEntry]

theorem parseWtLines_step_worktree (rp : String → Option String)
    (tmpdirRaw repo line : String) (rest : List String) (current : PyDict)
    (acc : List PyDict) (h : strStartsWith line "worktree " = true) :
    parseWtLines rp tmpdirRaw repo (line :: rest) current acc
      = parseWtLines rp tmpdirRaw repo rest
          [("path", removePrefixStr line "worktree ")] acc := by
  conv_lhs => rw [parseWtLines]
  rw [if_pos h]

theorem parseWtLines_step_head (rp : String → Option String)
    (tmpdirRaw repo line : String) (rest : List String) (current : PyDict)
    (acc : List PyDict) (h1 : strStartsWith line "worktree " = false)
    (h2 : strStartsWith line "HEAD " = true) :
    parseWtLines rp tmpdirRaw repo (line :: rest) current acc
      = parseWtLines rp tmpdirRaw repo rest
          (dset current "head" (removePrefixStr line "HEAD ")) acc := by
  conv_lhs => rw [parseWtLines]
  rw [if_neg (by simp [h1]), if_pos h2]

theorem parseWtLines_step_branch (rp : String → Option String)
    (tmpdirRaw repo line : String) (rest : List String) (current : PyDict)
    (acc : List PyDict) (h1 : strStartsWith line "worktree " = false)
    (h2 : strStartsWith line "HEAD " = false)
    (h3 : strStartsWith line "branch " = true) :
    parseWtLines rp tmpdirRaw repo (line :: rest) current acc
      = parseWtLines rp tmpdirRaw repo rest
          (dset current "branch" (removePrefixStr line "branch refs/heads/")) acc := by
  conv_lhs => rw [parseWtLines]
  rw [if_neg (by simp [h1]), if_neg (by simp [h2]), if_pos h3]

theorem parseWtLines_step_detached (rp : String → Option String)
    (tmpdirRaw repo : String) (rest : List String) (current : PyDict)
    (acc : List PyDict) :
    parseWtLines rp tmpdirRaw repo ("detached" :: rest) current acc
      = parseWtLines rp tmpdirRaw repo rest
          (dset current "branch"
            (if (dget? current "head").getD "" ≠ "" then
              "(detached at "
                ++ (⟨((dget? current "head").getD "").data.take 7⟩ : String) ++ ")"
            else "(detached)")) acc := by
  conv_lhs => rw [parseWtLines]
  rw [if_neg (by decide), if_neg (by decide), if_neg (by decide), if_pos rfl]

theorem parseWtLines_step_bare (rp : String → Option String)
    (tmpdirRaw repo : String) (rest : List String) (current : PyDict)
    (acc : List PyDict) :
    parseWtLines rp tmpdirRaw repo ("bare" :: rest) current acc
      = parseWtLines rp tmpdirRaw repo rest
          (dset current "branch" "(bare)") acc := by
  conv_lhs => rw [parseWtLines]
  rw [if_neg (by decide), if_neg (by decide), if_neg (by decide),
    if_neg (by decide), if_pos rfl]

theorem parseWtLines_step_blank (rp : String → Option String)
    (tmpdirRaw repo : String) (rest : List String) (current : PyDict)
    (acc : List PyDict) (entry : PyDict) (hcur : current ≠ [])
    (hflush : flushEntry rp tmpdirRaw repo current = .ok entry) :
    parseWtLines rp tmpdirRaw repo ("" :: rest) current acc
      = parseWtLines rp tmpdirRaw repo rest [] (acc ++ [entry]) := by
  conv_lhs => rw [parseWtLines]
  rw [if_neg (by decide), if_neg (by decide), if_neg (by decide),
    if_neg (by decide), if_neg (by decide), if_pos ⟨rfl, hcur⟩, hflush]

theorem parseWtLines_nil_empty (rp : String → Option String)
    (tmpdirRaw repo : String) (acc : List PyDict) :
    parseWtLines rp tmpdirRaw repo [] [] acc = .ok acc := by
  rw [parseWtLines, if_pos rfl]

theorem parseWtLines_blocks (f : String → String) (tmpdirRaw repo : String) :
    ∀ (bs : List WtBlock) (acc : List PyDict),
      parseWtLines (totalEnv f) tmpdirRaw repo (bs.flatMap renderBlock) [] acc
        = .ok (acc ++ bs.map (mkEntry f tmpdirRaw repo)) := by
  intro bs
  induction bs with
  | nil =>
    intro acc
    simp [parseWtLines_nil_empty]
  | cons b rest ih =>
    intro acc
    rw [List.flatMap_cons]
    show parseWtLines (totalEnv f) tmpdirRaw repo
      (("worktree " ++ b.path) :: ("HEAD " ++ b.headv) :: infoLine b.info :: ""
        :: rest.flatMap renderBlock) [] acc = _
    rw [parseWtLines_step_worktree _ _ _ _ _ _ _ (strStartsWith_append _ _),
      removePrefixStr_append,
      parseWtLines_step_head _ _ _ _ _ _ _ (head_line_not_worktree _)
        (strStartsWith_append _ _),
      removePrefixStr_append]
    have hinfo : parseWtLines (totalEnv f) tmpdirRaw repo
        (infoLine b.info :: "" :: rest.flatMap renderBlock)
        (dset [("path", b.path)] "head" b.headv) acc
      = parseWtLines (totalEnv f) tmpdirRaw repo ("" :: rest.flatMap renderBlock)
          (dset (dset [("path", b.path)] "head" b.headv) "branch"
            (displayBranch b)) acc := by
      cases hi : b.info with
      | onBranch n =>
        rw [show infoLine (BranchInfo.onBranch n) = "branch refs/heads/" ++ n
            from rfl,
          parseWtLines_step_branch _ _ _ _ _ _ _
            (branch_prefixed_line_not_worktree n)
            (branch_prefixed_line_not_head n)
            (branch_prefixed_line_starts n),
          removePrefixStr_append]
        simp [displayBranch, hi]
      | detachedHead =>
        rw [show infoLine BranchInfo.detachedHead = "detached" from rfl,
          parseWtLines_step_detached]
        rw [dget?_dset_self]
        simp [displayBranch, hi, Option.getD]
      | bareRepo =>
        rw [show infoLine BranchInfo.bareRepo = "bare" from rfl,
          parseWtLines_step_bare]
        simp [displayBranch, hi]
    rw [hinfo,
      parseWtLines_step_blank _ _ _ _ _ _ _ (by simp [dset]) (flushEntry_block _ _ _ _),
      ih]
    simp

theorem entryTriple_mkEntry (f : String → String) (tmpdirRaw repo : String)
    (b : WtBlock) :
    entryTriple (mkEntry f tmpdirRaw repo b)
      = (some b.path, some (displayBranch b),
         some (classifyKind f tmpdirRaw repo b.path)) := by
  have h1 : dget? (mkEntry f tmpdirRaw repo b) "path" = some b.path := by
    unfold mkEntry
    rw [dget?_dset_ne _ _ _ _ (by decide), dget?_dset_ne _ _ _ _ (by decide),
      dget?_dset_ne _ _ _ _ (by decide)]
    rfl
  have h2 : dget? (mkEntry f tmpdirRaw repo b) "branch" = some (displayBranch b) := by
    unfold mkEntry
    rw [dget?_dset_ne _ _ _ _ (by decide), dget?_dset_self]
  have h3 : dget? (mkEntry f tmpdirRaw repo b) "type"
      = some (classifyKind f tmpdirRaw repo b.path) := by
    unfold mkEntry
    rw [dget?_dset_self]
  simp [entryTriple, h1, h2, h3]

/-- C9: list_worktrees parses the listing as blank-line-separated blocks
and returns one entry per block in listing order: for every fabricated
block list, the parser returns exactly one entry per block, in order, whose
path, branch and type fields carry the block's worktree path, its branch
name with the refs/heads/ prefix stripped (or the detached/bare
placeholder) and its classification kind; and on the concrete two-block
listing (repository root on branch main, temp sandbox on branch feature)
it returns exactly those two path/branch/kind triples in input order. -/
theorem list_worktrees_roundtrip (f : String → String)
    (tmpdirRaw repo : String) (bs : List WtBlock) :
    parseWtLines (totalEnv f) tmpdirRaw repo (bs.flatMap renderBlock) [] []
      = .ok (bs.map (mkEntry f tmpdirRaw repo)) ∧
    (bs.map (mkEntry f tmpdirRaw repo)).map entryTriple
      = bs.map (fun b => (some b.path, some (displayBranch b),
          some (classifyKind f tmpdirRaw repo b.path))) ∧
    (list_worktrees (totalEnv id) "/tmp" "/home/user/repo" 0
        ("worktree /home/user/repo\nHEAD abc123\nbranch refs/heads/main\n\n"
          ++ "worktree /tmp/cw-xyz\nHEAD def456\nbranch refs/heads/feature\n\n")).map
      (fun es => es.map entryTriple)
      = .ok [(some "/home/user/repo", some "main", some "main"),
             (some "/tmp/cw-xyz", some "feature", some "temporary")] := by
  refine ⟨by simpa using parseWtLines_blocks f tmpdirRaw repo bs [], ?_, ?_⟩
  · rw [List.map_map]
    exact List.map_congr_left (fun b _ => entryTriple_mkEntry f tmpdirRaw repo b)
  · rfl

theorem flushEntry_keys (rp : String → Option String) (tmpdirRaw repo : String)
    (current entry : PyDict)
    (h : flushEntry rp tmpdirRaw repo current = .ok entry) :
    (dget? entry "path").isSome = true ∧ (dget? entry "branch").isSome = true ∧
      (dget? entry "type").isSome = true := by
  unfold flushEntry at h
  split at h
  · exact absurd h (by simp)
  · rename_i p hp
    split at h
    · exact absurd h (by simp)
    · rename_i k hc
      have he : entry = dset (dsetdefault current "branch" "(unknown)") "type" k := by
        injection h with h2
        exact h2.symm
      subst he
      refine ⟨?_, ?_, ?_⟩
      · rw [dget?_dset_ne _ _ _ _ (by decide), hp]
        rfl
      · rw [dget?_dset_ne _ _ _ _ (by decide)]
        exact dget?_dsetdefault_isSome _ _ _
      · rw [dget?_dset_self]
        rfl

theorem parseWtLines_keys (rp : String → Option String) (tmpdirRaw repo : String) :
    ∀ (lines : List String) (current : PyDict) (acc : List PyDict),
      (∀ e ∈ acc, (dget? e "path").isSome = true ∧
        (dget? e "branch").isSome = true ∧ (dget? e "type").isSome = true) →
      ∀ entries, parseWtLines rp tmpdirRaw repo lines current acc = .ok entries →
      ∀ e ∈ entries, (dget? e "path").isSome = true ∧
        (dget? e "branch").isSome = true ∧ (dget? e "type").isSome = true := by
  intro lines
  induction lines with
  | nil =>
    intro current acc hacc entries hentries e he
    rw [parseWtLines] at hentries
    split at hentries
    · injection hentries with h2
      exact hacc e (h2 ▸ he)
    · cases hflush : flushEntry rp tmpdirRaw repo current with
      | error e2 => rw [hflush] at hentries; exact absurd hentries (by simp)
      | ok entry =>
        rw [hflush] at hentries
        injection hentries with h2
        subst h2
        rcases List.mem_append.mp he with hmem | hmem
        · exact hacc e hmem
        · rw [List.mem_singleton.mp hmem]
          exact flushEntry_keys rp tmpdirRaw repo current entry hflush
  | cons line rest ih =>
    intro current acc hacc entries hentries e he
    rw [parseWtLines] at hentries
    split_ifs at hentries
    · exact ih _ _ hacc _ hentries e he
    · exact ih _ _ hacc _ hentries e he
    · exact ih _ _ hacc _ hentries e he
    · exact ih _ _ hacc _ hentries e he
    · exact ih _ _ hacc _ hentries e he
    · cases hflush : flushEntry rp tmpdirRaw repo current with
      | error e2 => rw [hflush] at hentries; exact absurd hentries (by simp)
      | ok entry =>
        rw [hflush] at hentries
        refine ih _ _ ?_ _ hentries e he
        intro e2 he2
        rcases List.mem_append.mp he2 with hmem | hmem
        · exact hacc e2 hmem
        · rw [List.mem_singleton.mp hmem]
          exact flushEntry_keys rp tmpdirRaw repo current entry hflush
    · exact ih _ _ hacc _ hentries e he

/-- C10: every entry list_worktrees returns has all three of the path,
branch and type keys; a final listing block not followed by a terminating
blank line is still emitted as an entry; and a block containing no branch
line, no detached marker and no bare marker receives the branch
placeholder "(unknown)" (checked on a concrete listing whose single block
has only worktree and HEAD lines and no trailing blank line). -/
theorem list_worktrees_entries_complete (resolvePath : String → Option String)
    (tmpdirRaw repo : String) (rc : Int) (out : String) :
    (∀ entries, list_worktrees resolvePath tmpdirRaw repo rc out = .ok entries →
      ∀ e ∈ entries, (dget? e "path").isSome = true ∧
        (dget? e "branch").isSome = true ∧ (dget? e "type").isSome = true) ∧
    (list_worktrees (totalEnv id) "/tmp" "/r" 0 "worktree /a\nHEAD h123").map
      (fun es => es.map entryTriple)
      = .ok [(some "/a", some "(unknown)", some "unknown")] := by
  constructor
  · intro entries hentries e he
    unfold list_worktrees at hentries
    split at hentries
    · injection hentries with h2
      subst h2
      exact absurd he (List.not_mem_nil e)
    · exact parseWtLines_keys resolvePath tmpdirRaw repo _ _ _
        (fun e2 he2 => absurd he2 (List.not_mem_nil e2)) entries hentries e he
  · rfl

/-! ## Persistent sandbox naming (src/src/commands/worktree.py,
persistent_worktree_dir); hashlib.sha256 modelled bit-for-bit -/

/-- Truncation to a 32-bit word. -/
def mask32 (x : Nat) : Nat := x % 2 ^ 32

/-- 32-bit right rotation. -/
def rotr32 (x n : Nat) : Nat := mask32 ((x >>> n) ||| (x <<< (32 - n)))

/-- 32-bit bitwise complement. -/
def not32 (x : Nat) : Nat := x ^^^ (2 ^ 32 - 1)

/-- The 64 SHA-256 round constants. -/
def sha256K : List Nat :=
  [1116352408, 1899447441, 3049323471, 3921009573,
   961987163, 1508970993, 2453635748, 2870763221,
   3624381080, 310598401, 607225278, 1426881987,
   1925078388, 2162078206, 2614888103, 3248222580,
   3835390401, 4022224774, 264347078, 604807628,
   770255983, 1249150122, 1555081692, 1996064986,
   2554220882, 2821834349, 2952996808, 3210313671,
   3336571891, 3584528711, 113926993, 338241895,
   666307205, 773529912, 1294757372, 1396182291,
   1695183700, 1986661051, 2177026350, 2456956037,
   2730485921, 2820302411, 3259730800, 3345764771,
   3516065817, 3600352804, 4094571909, 275423344,
   430227734, 506948616, 659060556, 883997877,
   958139571, 1322822218, 1537002063, 1747873779,
   1955562222, 2024104815, 2227730452, 2361852424,
   2428436474, 2756734187, 3204031479, 3329325298]

/-- The eight SHA-256 working registers. -/
structure Sha256Regs where
  a : Nat
  b : Nat
  c : Nat
  d : Nat
  e : Nat
  f : Nat
  g : Nat
  h : Nat
deriving DecidableEq

/-- The SHA-256 initial hash value. -/
def sha256H0 : Sha256Regs :=
  ⟨1779033703, 3144134277, 1013904242, 2773480762,
   1359893119, 2600822924, 528734635, 1541459225⟩

def smallSigma0 (x : Nat) : Nat := (rotr32 x 7) ^^^ (rotr32 x 18) ^^^ (x >>> 3)

def smallSigma1 (x : Nat) : Nat := (rotr32 x 17) ^^^ (rotr32 x 19) ^^^ (x >>> 10)

def bigSigma0 (x : Nat) : Nat := (rotr32 x 2) ^^^ (rotr32 x 13) ^^^ (rotr32 x 22)

def bigSigma1 (x : Nat) : Nat := (rotr32 x 6) ^^^ (rotr32 x 11) ^^^ (rotr32 x 25)

/-- The message schedule: the 16 block words extended to 64. -/
def msgSchedule (block : List Nat) : List Nat :=
  (List.range 64).foldl (fun w i =>
    if i < 16 then w ++ [block.getD i 0]
    else
      w ++ [mask32 (w.getD (i - 16) 0 + smallSigma0 (w.getD (i - 15) 0)
        + w.getD (i - 7) 0 + smallSigma1 (w.getD (i - 2) 0))]) []

/-- One SHA-256 compression round. -/
def sha256Round (r : Sha256Regs) (k w : Nat) : Sha256Regs :=
  let ch := (r.e &&& r.f) ^^^ (not32 r.e &&& r.g)
  let t1 := mask32 (r.h + bigSigma1 r.e + ch + k + w)
  let mj := (r.a &&& r.b) ^^^ (r.a &&& r.c) ^^^ (r.b &&& r.c)
  let t2 := mask32 (bigSigma0 r.a + mj)
  ⟨mask32 (t1 + t2), r.a, r.b, r.c, mask32 (r.d + t1), r.e, r.f, r.g⟩

/-- The SHA-256 compression function on one 16-word block. -/
def sha256Compress (hs : Sha256Regs) (block : List Nat) : Sha256Regs :=
  let w := msgSchedule block
  let fin := (List.range 64).foldl
    (fun r i => sha256Round r (sha256K.getD i 0) (w.getD i 0)) hs
  ⟨mask32 (hs.a + fin.a), mask32 (hs.b + fin.b), mask32 (hs.c + fin.c),
   mask32 (hs.d + fin.d), mask32 (hs.e + fin.e), mask32 (hs.f + fin.f),
   mask32 (hs.g + fin.g), mask32 (hs.h + fin.h)⟩

/-- Big-endian 64-bit length field, as bytes. -/
def be64 (n : Nat) : List Nat :=
  [(n >>> 56) % 256, (n >>> 48) % 256, (n >>> 40) % 256, (n >>> 32) % 256,
   (n >>> 24) % 256, (n >>> 16) % 256, (n >>> 8) % 256, n % 256]

/-- SHA-256 padding: the 0x80 byte, zeros up to 56 mod 64, and the bit
length. -/
def sha256Pad (msg : List Nat) : List Nat :=
  msg ++ 0x80 :: List.replicate ((119 - (msg.length % 64)) % 64) 0
    ++ be64 (8 * msg.length)

/-- Big-endian 32-bit words from a byte list. -/
def toWords : List Nat → List Nat
  | b0 :: b1 :: b2 :: b3 :: rest =>
    (b0 * 2 ^ 24 + b1 * 2 ^ 16 + b2 * 2 ^ 8 + b3) :: toWords rest
  | _ => []

/-- Fold the compression over n 64-byte blocks. -/
def sha256Process : Nat → Sha256Regs → List Nat → Sha256Regs
  | 0, hs, _ => hs
  | n + 1, hs, bytes =>
    sha256Process n (sha256Compress hs (toWords (bytes.take 64))) (bytes.drop 64)

/-- The SHA-256 digest registers of a byte message. -/
def sha256Digest (msg : List Nat) : Sha256Regs :=
  sha256Process ((sha256Pad msg).length / 64) sha256H0 (sha256Pad msg)

/-- The sixteen lowercase hex digits. -/
def hexDigits : List Char :=
  "0123456789abcdef".data

def hexChar (n : Nat) : Char := hexDigits.getD n '0'

/-- Eight lowercase hex characters of one 32-bit word. -/
def wordHex (w : Nat) : List Char :=
  [hexChar ((w >>> 28) % 16), hexChar ((w >>> 24) % 16), hexChar ((w >>> 20) % 16),
   hexChar ((w >>> 16) % 16), hexChar ((w >>> 12) % 16), hexChar ((w >>> 8) % 16),
   hexChar ((w >>> 4) % 16), hexChar (w % 16)]

/-- The lowercase hex digest characters (hashlib hexdigest). -/
def sha256HexChars (msg : List Nat) : List Char :=
  wordHex (sha256Digest msg).a ++ wordHex (sha256Digest msg).b
    ++ wordHex (sha256Digest msg).c ++ wordHex (sha256Digest msg).d
    ++ wordHex (sha256Digest msg).e ++ wordHex (sha256Digest msg).f
    ++ wordHex (sha256Digest msg).g ++ wordHex (sha256Digest msg).h

/-- UTF-8 encoding of one character (Python str.encode). -/
def utf8EncodeChar (c : Char) : List Nat :=
  let n := c.toNat
  if n < 0x80 then [n]
  else if n < 0x800 then
    [0xC0 ||| (n >>> 6), 0x80 ||| (n &&& 0x3F)]
  else if n < 0x10000 then
    [0xE0 ||| (n >>> 12), 0x80 ||| ((n >>> 6) &&& 0x3F), 0x80 ||| (n &&& 0x3F)]
  else
    [0xF0 ||| (n >>> 18), 0x80 ||| ((n >>> 12) &&& 0x3F),
     0x80 ||| ((n >>> 6) &&& 0x3F), 0x80 ||| (n &&& 0x3F)]

/-- UTF-8 bytes of a string (Python str.encode). -/
def utf8Bytes (s : String) : List Nat := s.data.flatMap utf8EncodeChar

set_option maxRecDepth 10000 in
/-- A known SHA-256 test vector, pinning the embedding of the hash to the
standard function hashlib implements. -/
theorem sha256_test_vector_abc :
    sha256HexChars (utf8Bytes "abc")
      = "ba7816bf8f01cfea414140de5dae2223b00361a396177a9cb410ff61f20015ad".data := by
  decide

/-- The branch name with path separators replaced: re.sub of slash and
backslash characters with a dash. -/
def sanitizeBranch (branch : String) : String :=
  ⟨branch.data.map (fun c => if c = '/' ∨ c = '\\' then '-' else c)⟩

/-- The first eight hex digest characters of a key, hashlib hexdigest
sliced to eight characters. -/
def shortHash (key : String) : String :=
  ⟨(sha256HexChars (utf8Bytes key)).take 8⟩

/-- persistent_worktree_dir from src/src/commands/worktree.py: sanitize the
branch name, hash the branch:repo key, and return the child
sanitized-shorthash of the persistent root. -/
def persistent_worktree_dir (repo branch : String) : String :=
  PERSISTENT_WORKTREES_DIR ++ "/"
    ++ sanitizeBranch branch ++ "-" ++ shortHash (branch ++ ":" ++ repo)

/-- The parent directory of a path string: the text before the last slash. -/
def parentDir (s : String) : String :=
  ⟨((s.data.reverse.dropWhile (fun c => c ≠ '/')).reverse).dropLast⟩

/-- The last dash-separated segment of a string: rsplit on the dash, last
piece. -/
def afterLastDash (s : String) : String :=
  ⟨(s.data.reverse.takeWhile (fun c => c ≠ '-')).reverse⟩

theorem hexChar_safe (n : Nat) : hexChar n ≠ '/' ∧ hexChar n ≠ '-' := by
  rcases n with _|_|_|_|_|_|_|_|_|_|_|_|_|_|_|_|m
  all_goals try exact ⟨by decide, by decide⟩
  unfold hexChar
  rw [List.getD_eq_default]
  · exact ⟨by decide, by decide⟩
  · simp [hexDigits]

theorem mem_wordHex_safe (c : Char) (w : Nat) (h : c ∈ wordHex w) :
    c ≠ '/' ∧ c ≠ '-' := by
  simp only [wordHex, List.mem_cons, List.not_mem_nil, or_false] at h
  rcases h with h|h|h|h|h|h|h|h <;> exact h ▸ hexChar_safe _

theorem mem_shortHash_safe (c : Char) (key : String)
    (h : c ∈ (shortHash key).data) : c ≠ '/' ∧ c ≠ '-' := by
  simp only [shortHash] at h
  have h2 : c ∈ sha256HexChars (utf8Bytes key) := List.take_subset 8 _ h
  simp only [sha256HexChars, List.mem_append] at h2
  rcases h2 with ((((((h2|h2)|h2)|h2)|h2)|h2)|h2)|h2 <;>
    exact mem_wordHex_safe c _ h2

theorem sha256HexChars_length (msg : List Nat) :
    (sha256HexChars msg).length = 64 := by
  simp [sha256HexChars, wordHex]

theorem shortHash_length (key : String) : (shortHash key).data.length = 8 := by
  simp only [shortHash]
  rw [List.length_take, sha256HexChars_length]
  decide

theorem mem_sanitizeBranch_no_slash (c : Char) (branch : String)
    (h : c ∈ (sanitizeBranch branch).data) : c ≠ '/' := by
  simp only [sanitizeBranch, List.mem_map] at h
  obtain ⟨c2, _, hc⟩ := h
  subst hc
  split
  · decide
  · next hne =>
    intro he
    exact hne (Or.inl he)

theorem dropWhile_append_all {p : Char → Bool} (l1 l2 : List Char)
    (h : ∀ c ∈ l1, p c = true) :
    (l1 ++ l2).dropWhile p = l2.dropWhile p := by
  induction l1 with
  | nil => rfl
  | cons a t ih =>
    have ha : p a = true := h a (List.mem_cons_self a t)
    simp only [List.cons_append, List.dropWhile_cons, ha, if_true]
    exact ih (fun c hc => h c (List.mem_cons_of_mem a hc))

theorem takeWhile_append_all {p : Char → Bool} (l1 l2 : List Char)
    (h : ∀ c ∈ l1, p c = true) :
    (l1 ++ l2).takeWhile p = l1 ++ l2.takeWhile p := by
  induction l1 with
  | nil => rfl
  | cons a t ih =>
    have ha : p a = true := h a (List.mem_cons_self a t)
    simp only [List.cons_append, List.takeWhile_cons, ha, if_true]
    rw [ih (fun c hc => h c (List.mem_cons_of_mem a hc))]

theorem parentDir_append (root name : String)
    (hname : ∀ c ∈ name.data, c ≠ '/') :
    parentDir (root ++ "/" ++ name) = root := by
  simp only [parentDir, String.data_append]
  rw [List.reverse_append, List.reverse_append]
  rw [dropWhile_append_all _ _
    (fun c hc => by
      have h2 : c ∈ name.data := List.mem_reverse.mp hc
      simpa using hname c h2)]
  simp

theorem afterLastDash_append (pre fp : String)
    (hfp : ∀ c ∈ fp.data, c ≠ '-') :
    afterLastDash (pre ++ "-" ++ fp) = fp := by
  simp only [afterLastDash, String.data_append]
  rw [List.reverse_append, List.reverse_append]
  rw [takeWhile_append_all _ _
    (fun c hc => by
      have h2 : c ∈ fp.data := List.mem_reverse.mp hc
      simpa using hfp c h2)]
  simp

theorem str_eq_of_data : ∀ {a b : String}, a.data = b.data → a = b
  | ⟨_⟩, ⟨_⟩, rfl => rfl

theorem name_chars_no_slash (repo branch : String) (c : Char)
    (hc : c ∈ (sanitizeBranch branch ++ "-"
      ++ shortHash (branch ++ ":" ++ repo)).data) : c ≠ '/' := by
  simp only [String.data_append, List.mem_append] at hc
  rcases hc with (hc | hc) | hc
  · exact mem_sanitizeBranch_no_slash c branch hc
  · simp only [show ("-" : String).data = ['-'] from rfl,
      List.mem_singleton] at hc
    subst hc
    decide
  · exact (mem_shortHash_safe c _ hc).1

set_option maxRecDepth 10000 in
/-- C6 counterexample: varying the repository does not always change the
output. The branch main in the two distinct repositories /repo11935 and
/repo20394 yields keys whose digests collide on the first eight hex
characters, so both pairs map to the same persistent path. -/
theorem persistent_worktree_dir_collision :
    persistent_worktree_dir "/repo11935" "main"
        = persistent_worktree_dir "/repo20394" "main" ∧
      ("/repo11935" : String) ≠ "/repo20394" :=
  ⟨by decide, by decide⟩

/-- C6 amended: persistent_worktree_dir is deterministic (two calls with
the identical repository and branch yield the identical path), its result
is a direct child of the single well-known persistent-sandboxes root, the
produced name's trailing fingerprint segment is the eight-character hash
slice (fixed length 8), and varying the repository or the branch changes
the output except when both the sanitized branch names and the
eight-character fingerprints coincide. -/
theorem persistent_worktree_dir_spec (repo branch r1 b1 r2 b2 : String) :
    (r1 = r2 → b1 = b2 →
      persistent_worktree_dir r1 b1 = persistent_worktree_dir r2 b2) ∧
    parentDir (persistent_worktree_dir repo branch) = PERSISTENT_WORKTREES_DIR ∧
    afterLastDash (persistent_worktree_dir repo branch)
      = shortHash (branch ++ ":" ++ repo) ∧
    (shortHash (branch ++ ":" ++ repo)).data.length = 8 ∧
    (persistent_worktree_dir r1 b1 = persistent_worktree_dir r2 b2 →
      sanitizeBranch b1 = sanitizeBranch b2 ∧
        shortHash (b1 ++ ":" ++ r1) = shortHash (b2 ++ ":" ++ r2)) := by
  have hshape : ∀ r b, persistent_worktree_dir r b
      = PERSISTENT_WORKTREES_DIR ++ "/"
        ++ (sanitizeBranch b ++ "-" ++ shortHash (b ++ ":" ++ r)) := by
    intro r b
    apply str_eq_of_data
    simp [persistent_worktree_dir, String.data_append, List.append_assoc]
  refine ⟨?_, ?_, ?_, shortHash_length _, ?_⟩
  · intro h1 h2
    subst h1
    subst h2
    rfl
  · rw [hshape, parentDir_append _ _ (name_chars_no_slash repo branch)]
  · exact afterLastDash_append _ _ (fun c hc => (mem_shortHash_safe c _ hc).2)
  · intro h
    have hhash : shortHash (b1 ++ ":" ++ r1) = shortHash (b2 ++ ":" ++ r2) := by
      have h2 := congrArg afterLastDash h
      simp only [persistent_worktree_dir] at h2
      rwa [afterLastDash_append _ _ (fun c hc => (mem_shortHash_safe c _ hc).2),
        afterLastDash_append _ _ (fun c hc => (mem_shortHash_safe c _ hc).2)] at h2
    refine ⟨?_, hhash⟩
    have hd := congrArg String.data h
    simp only [persistent_worktree_dir, String.data_append,
      List.append_assoc] at hd
    have hd2 := List.append_cancel_left hd
    simp only [show ("/" : String).data = ['/'] from rfl,
      show ("-" : String).data = ['-'] from rfl,
      List.singleton_append, List.cons_append] at hd2
    injection hd2 with _ hd3
    have hlen : (('-' :: (shortHash (b1 ++ ":" ++ r1)).data) : List Char).length
        = (('-' :: (shortHash (b2 ++ ":" ++ r2)).data) : List Char).length := by
      simp only [List.length_cons, shortHash_length]
    have hd4 : (sanitizeBranch b1).data ++ '-' :: (shortHash (b1 ++ ":" ++ r1)).data
        = (sanitizeBranch b2).data ++ '-' :: (shortHash (b2 ++ ":" ++ r2)).data := by
      simpa using hd3
    obtain ⟨hs, _⟩ := List.append_inj' hd4 hlen
    exact str_eq_of_data hs

end Claudway
